import Mathlib

/-!
Verification development for the LeafNetwork market-intelligence core.

The repository's domain layer (record store, series builder, momentum engine,
enrichment engine, recommendation synthesizer, filter discovery, pagination)
is referenced from `src/backend/main.py` but its module sources
(`domains/market/*`) are not part of the shipped source tree; those
components are modelled here from the specification's contracts.  The
farmer-dashboard fallback logic is embedded directly from
`src/backend/main.py`.

Dates are modelled as naturals (a total order is all the algorithms use),
prices and arrival quantities as rationals.
-/

namespace LeafNetwork

/-- Trend classification of an enriched snapshot: {rising, falling, stable}. -/
inductive Trend where
  | rising
  | falling
  | stable
deriving DecidableEq, Fintype

/-- Buyer signal of an enriched snapshot: {Strong, Stable, Weak}. -/
inductive BuyerSignal where
  | Strong
  | Stable
  | Weak
deriving DecidableEq, Fintype

/-- Momentum classification: {bullish, neutral, bearish}. -/
inductive Momentum where
  | bullish
  | neutral
  | bearish
deriving DecidableEq, Fintype

/-- Risk level of an enriched snapshot: {Low, Moderate, High}. -/
inductive RiskLevel where
  | Low
  | Moderate
  | High
deriving DecidableEq, Fintype

/-- Recommendation action: {BUY, SELL, HOLD}. -/
inductive Action where
  | BUY
  | SELL
  | HOLD
deriving DecidableEq, Fintype

/-- Modelled from the spec (§3, Record Store input rows; the record-store
module itself is absent from `src/`): one observed price point. -/
structure MarketRecord where
  region : String
  commodity : String
  market : String
  date : Nat
  min_price : ℚ
  max_price : ℚ
  modal_price : ℚ
  arrival : ℚ
deriving DecidableEq

/-- A price-series point: (date, modal price). -/
abbrev SeriesPoint := Nat × ℚ

/-- Modelled from the spec (§4.3, Momentum Engine output, absent from
`src/`): classification plus the underlying percentage change. -/
structure MomentumResult where
  momentum : Momentum
  delta : ℚ
deriving DecidableEq

/-- Modelled from the spec (§4.3): the symmetric classification threshold
`T`, a fixed tunable constant, here 3% as used by the boundary example. -/
def momentumThreshold : ℚ := 3 / 100

/-- Modelled from the spec (§4.3): `delta > +T → bullish`,
`delta < -T → bearish`, otherwise `neutral`. -/
def classifyDelta (d : ℚ) : Momentum :=
  if momentumThreshold < d then .bullish
  else if d < -momentumThreshold then .bearish
  else .neutral

/-- Last element of `x :: l` (proof-free form of `List.getLast`). -/
def lastOf {α : Type} (x : α) : List α → α
  | [] => x
  | y :: l => lastOf y l

/-- Modelled from the spec (§4.3, `computePriceMomentum`, absent from
`src/`): with at least two points, `delta = (last - first) / first` over the
window's modal prices, classified by `classifyDelta`; with fewer than two
points the defined degenerate result is neutral with delta 0. -/
def computePriceMomentum (series : List SeriesPoint) : MomentumResult :=
  match series with
  | [] => ⟨.neutral, 0⟩
  | [_] => ⟨.neutral, 0⟩
  | p :: q :: rest =>
      let lastP := lastOf q rest
      let d := (lastP.2 - p.2) / p.2
      ⟨classifyDelta d, d⟩

/-- Modelled from the spec (§3, Recommendation, absent from `src/`):
action, integer confidence, human-readable reason. -/
structure Recommendation where
  action : Action
  confidence : ℤ
  reason : String
deriving DecidableEq

/-- One row of the §4.5 decision table.  `none` in a trend or buyer-signal
pattern is a wildcard; an empty momentum pattern list is a wildcard,
otherwise the row matches the listed momentum values. -/
structure Row where
  tpat : Option Trend
  bpat : Option BuyerSignal
  mpat : List Momentum
  action : Action
  base : ℤ
  reason : String
deriving DecidableEq

/-- Whether a decision-table row matches an input triple. -/
def rowMatches (r : Row) (t : Trend) (b : BuyerSignal) (m : Momentum) : Bool :=
  (r.tpat.all (fun x => x = t)) && (r.bpat.all (fun x => x = b))
    && (r.mpat.isEmpty || r.mpat.contains m)

/-- Modelled from the spec (§4.5): the listed rows of the decision table,
in order. -/
def decisionTable : List Row :=
  [ ⟨some .rising, some .Strong, [.bullish], .SELL, 85,
      "Rising prices with strong demand - consider selling now"⟩,
    ⟨some .rising, some .Stable, [.bullish, .neutral], .HOLD, 65,
      "Prices rising with stable demand - hold for further gains"⟩,
    ⟨some .falling, some .Weak, [.bearish], .BUY, 80,
      "Falling prices with weak demand - buying opportunity"⟩,
    ⟨some .falling, none, [.neutral], .HOLD, 60,
      "Prices falling without momentum - hold and watch"⟩,
    ⟨some .stable, none, [], .HOLD, 70,
      "Stable market - hold current position"⟩ ]

/-- Modelled from the spec (§4.5): the default row any unmatched
combination falls through to. -/
def defaultRow : Row :=
  ⟨none, none, [], .HOLD, 55, "No clear signal - hold"⟩

/-- The first matching row of the decision table, or the default row. -/
def matchRow (t : Trend) (b : BuyerSignal) (m : Momentum) : Row :=
  (decisionTable.find? (fun r => rowMatches r t b m)).getD defaultRow

/-- Modelled from the spec (§4.5): confidence adjustment, `+10` when the
momentum direction agrees with the trend direction, `-10` when it
conflicts, `0` otherwise. -/
def momentumAdjust (t : Trend) (m : Momentum) : ℤ :=
  match t, m with
  | .rising, .bullish => 10
  | .rising, .bearish => -10
  | .falling, .bearish => 10
  | .falling, .bullish => -10
  | _, _ => 0

/-- Clamp a confidence score to [0, 100]. -/
def clampConfidence (x : ℤ) : ℤ := max 0 (min 100 x)

/-- Modelled from the spec (§4.5, `computeTradeRecommendation`, absent from
`src/`): look up the first matching row (falling through to the default
row), then adjust its confidence base by the momentum/trend agreement and
clamp to [0, 100]. -/
def computeTradeRecommendation (t : Trend) (b : BuyerSignal) (m : Momentum) :
    Recommendation :=
  let r := matchRow t b m
  ⟨r.action, clampConfidence (r.base + momentumAdjust t m), r.reason⟩

/-- ASCII lowercase of a character. -/
def lowerChar (c : Char) : Char :=
  if 'A' ≤ c ∧ c ≤ 'Z' then Char.ofNat (c.toNat + 32) else c

/-- Lowercased character content of a string. -/
def lowerStr (s : String) : List Char := s.data.map lowerChar

/-- Modelled from the spec (§4.1): case-insensitive exact match on the
commodity field. -/
def eqCI (a b : String) : Bool := lowerStr a == lowerStr b

/-- The records of a dataset matching a commodity. -/
def filterCommodity (rows : List MarketRecord) (commodity : String) :
    List MarketRecord :=
  rows.filter (fun r => eqCI r.commodity commodity)

/-- Insert into a list sorted ascending by an integer key. -/
def insertBy {α : Type} (key : α → ℤ) (x : α) : List α → List α
  | [] => [x]
  | y :: ys => if key x ≤ key y then x :: y :: ys else y :: insertBy key x ys

/-- Insertion sort, ascending by an integer key. -/
def sortBy {α : Type} (key : α → ℤ) (l : List α) : List α :=
  l.foldr (insertBy key) []

/-- Deduplicate, keeping first occurrences (stable on input order). -/
def dedupKeepFirst {α : Type} [BEq α] : List α → List α
  | [] => []
  | x :: xs => x :: (dedupKeepFirst xs).filter (fun y => !(y == x))

/-- The distinct observation dates of a record list, in first-seen order. -/
def distinctDates (l : List MarketRecord) : List Nat :=
  dedupKeepFirst (l.map (fun r => r.date))

/-- The modal price of the last record seen with a given date (the
"later duplicate same-date records overwrite earlier ones" rule). -/
def lastFor (l : List MarketRecord) (d : Nat) : Option ℚ :=
  ((l.filter (fun r => r.date == d)).getLast?).map (fun r => r.modal_price)

/-- Modelled from the spec (§4.2): group matching records by date,
keeping the last record seen per date. -/
def lastPerDate (l : List MarketRecord) : List SeriesPoint :=
  (distinctDates l).filterMap (fun d => (lastFor l d).map (fun p => (d, p)))

/-- The trailing `n` entries of a list. -/
def takeTrailing {α : Type} (n : Nat) (l : List α) : List α :=
  l.drop (l.length - n)

/-- Modelled from the spec (§4.2, Series Builder core, absent from `src/`):
group matching records by date keeping the last record per date, sort by
date ascending, take the trailing `days` entries; never pads. -/
def buildSeries (matching : List MarketRecord) (days : Nat) : List SeriesPoint :=
  takeTrailing days (sortBy (fun p => (p.1 : ℤ)) (lastPerDate matching))

/-- The dataset-access failures owned by the external I/O collaborator. -/
inductive DatasetErr where
  | fileMissing
  | catalogUnreadable
deriving DecidableEq

/-- The on-disk dataset catalog: whether the catalog itself is readable,
and per region either parsed rows (`some`) or an unreadable/missing file
(`none`). -/
structure Disk where
  catalogOk : Bool
  files : List (String × Option (List MarketRecord))

/-- Catalog lookup of a region's dataset file. -/
def lookupFile (files : List (String × Option (List MarketRecord)))
    (region : String) : Option (Option (List MarketRecord)) :=
  (files.find? (fun f => f.1 == region)).map (fun f => f.2)

/-- Modelled from the spec (§4.1): load the backing dataset for a region;
unknown region gives an empty result set, not a failure; only
dataset-access failures (file missing, catalog unreadable) are errors. -/
def readDataset (dk : Disk) (region : String) :
    Except DatasetErr (List MarketRecord) :=
  if dk.catalogOk then
    match lookupFile dk.files region with
    | none => .ok []
    | some none => .error .fileMissing
    | some (some rows) => .ok rows
  else .error .catalogUnreadable

/-- Modelled from the spec (§4.1, §6): matching records in chronological
order plus the single most-recent record. -/
structure RawMarket where
  records : List MarketRecord
  latest : Option MarketRecord
deriving DecidableEq

/-- Modelled from the spec (§4.1, `getMarketData`, absent from `src/`). -/
def getMarketData (dk : Disk) (region commodity : String) :
    Except DatasetErr RawMarket :=
  (readDataset dk region).map (fun rows =>
    let m := sortBy (fun r => (r.date : ℤ)) (filterCommodity rows commodity)
    ⟨m, m.getLast?⟩)

/-- Modelled from the spec (§4.2, `getPriceTrendSeries`, absent from
`src/`). -/
def getPriceTrendSeries (dk : Disk) (region commodity : String) (days : Nat) :
    Except DatasetErr (List SeriesPoint) :=
  (readDataset dk region).map (fun rows =>
    buildSeries (filterCommodity rows commodity) days)

/-- The previous-and-last pair of a list, when it has at least two
elements. -/
def lastTwo {α : Type} : List α → Option (α × α)
  | [] => none
  | [_] => none
  | [x, y] => some (x, y)
  | _ :: y :: z :: rest => lastTwo (y :: z :: rest)

/-- Direction of a price move from `prev` to `last`. -/
def directionOf (prev last : ℚ) : Trend :=
  if prev < last then .rising
  else if last < prev then .falling
  else .stable

/-- Modelled from the spec (§4.4): trend from the last two series points;
insufficient data means stable. -/
def trendOf (series : List SeriesPoint) : Trend :=
  match lastTwo series with
  | some (p, q) => directionOf p.2 q.2
  | none => .stable

/-- Modelled from the spec (§4.4): arrival-quantity trend from the last
two records; `none` when arrival data is absent. -/
def arrivalTrend (records : List MarketRecord) : Option Trend :=
  match lastTwo records with
  | some (p, q) => some (directionOf p.arrival q.arrival)
  | none => none

/-- Modelled from the spec (§4.4): rising price with falling/stable
arrivals is Strong; falling price with rising arrivals is Weak; otherwise
Stable. -/
def buyerSignal (t : Trend) (arrivals : Option Trend) : BuyerSignal :=
  match t, arrivals with
  | .rising, some .falling => .Strong
  | .rising, some .stable => .Strong
  | .falling, some .rising => .Weak
  | _, _ => .Stable

/-- Mean of a list of rationals. -/
def qmean (l : List ℚ) : ℚ := l.sum / (l.length : ℚ)

/-- Population variance of a list of rationals. -/
def qvariance (l : List ℚ) : ℚ :=
  ((l.map (fun p => (p - qmean l) ^ 2)).sum) / (l.length : ℚ)

/-- Modelled from the spec (§4.4): lower volatility boundary, the squared
coefficient of variation at 5% (the exact constants are tunable). -/
def lowRiskBound : ℚ := 1 / 400

/-- Modelled from the spec (§4.4): upper volatility boundary, the squared
coefficient of variation at 15% (the exact constants are tunable). -/
def highRiskBound : ℚ := 9 / 400

/-- Modelled from the spec (§4.4): risk from the volatility (squared
coefficient of variation of modal price) of the window; an empty series
degrades to Moderate. -/
def riskLevel (series : List SeriesPoint) : RiskLevel :=
  match series with
  | [] => .Moderate
  | _ :: _ =>
      let prices := series.map (fun p => p.2)
      let c := qvariance prices / (qmean prices) ^ 2
      if c < lowRiskBound then .Low
      else if highRiskBound < c then .High
      else .Moderate

/-- Modelled from the spec (§3, EnrichedSnapshot, absent from `src/`). -/
structure EnrichedSnapshot where
  trend : Trend
  buyer_signal : BuyerSignal
  risk_level : RiskLevel
deriving DecidableEq

/-- Modelled from the spec (§4.4, `enrichMarketData`, absent from
`src/`). -/
def enrichMarketData (raw : RawMarket) (series : List SeriesPoint) :
    EnrichedSnapshot :=
  let t := trendOf series
  ⟨t, buyerSignal t (arrivalTrend raw.records), riskLevel series⟩

/-- One charting point. -/
structure ChartPoint where
  date : Nat
  price : ℚ
deriving DecidableEq

/-- Modelled from the spec (§6, `toChartSeries`, absent from `src/`):
ordered (date, price) pairs for charting. -/
def toChartSeries (series : List SeriesPoint) : List ChartPoint :=
  series.map (fun p => ⟨p.1, p.2⟩)

/-- Modelled from the spec (§6, presentation object of
`toMarketSummary`). -/
structure MarketSummary where
  snapshot : EnrichedSnapshot
  momentum : MomentumResult
  recommendation : Recommendation
  chart : List ChartPoint
deriving DecidableEq

/-- Modelled from the spec (§6, `toMarketSummary`, absent from `src/`). -/
def toMarketSummary (snap : EnrichedSnapshot) (mres : MomentumResult)
    (recm : Recommendation) (chart : List ChartPoint) : MarketSummary :=
  ⟨snap, mres, recm, chart⟩

/-- The full market-intelligence pipeline of
`src/backend/main.py::market_intelligence`: fetch raw records and series,
enrich, compute momentum, synthesize the recommendation, attach the
chart. -/
def marketIntelligence (dk : Disk) (region commodity : String) (days : Nat) :
    Except DatasetErr MarketSummary := do
  let raw ← getMarketData dk region commodity
  let series ← getPriceTrendSeries dk region commodity days
  let enriched := enrichMarketData raw series
  let mres := computePriceMomentum series
  let recm := computeTradeRecommendation enriched.trend enriched.buyer_signal
    mres.momentum
  pure (toMarketSummary enriched mres recm (toChartSeries series))

/-- Modelled from the spec (§4.7): a page of records plus the total count
and the echoed paging parameters. -/
structure PagedRecords where
  records : List MarketRecord
  total : Nat
  page : Nat
  page_size : Nat
deriving DecidableEq

/-- Modelled from the spec (§4.7): matching records sorted by date
descending, sliced to the requested page. -/
def pagedOf (rows : List MarketRecord) (commodity : String)
    (page psize : Nat) : PagedRecords :=
  let m := sortBy (fun r => -(r.date : ℤ)) (filterCommodity rows commodity)
  ⟨(m.drop ((page - 1) * psize)).take psize, m.length, page, psize⟩

/-- Modelled from the spec (§4.7, `getMarketRecords`, absent from
`src/`). -/
def getMarketRecords (dk : Disk) (region commodity : String)
    (page psize : Nat) : Except DatasetErr PagedRecords :=
  (readDataset dk region).map (fun rows => pagedOf rows commodity page psize)

/-- Split a character list at the first underscore. -/
def splitCharsUnderscore : List Char → List Char × List Char
  | [] => ([], [])
  | c :: rest =>
      if c = '_' then ([], rest)
      else
        let p := splitCharsUnderscore rest
        (c :: p.1, p.2)

/-- Parse a region identifier of the shape `State_District`. -/
def splitRegion (s : String) : String × String :=
  let p := splitCharsUnderscore s.data
  (⟨p.1⟩, ⟨p.2⟩)

/-- Modelled from the spec (§3, FilterCatalog, absent from `src/`). -/
structure FilterCatalog where
  topology : List (String × String)
  commodities : List String
deriving DecidableEq

/-- Modelled from the spec (§4.6, `getAvailableFilters`, absent from
`src/`): state/district topology from dataset identifiers plus the union
of commodity names; empty structures when the catalog is empty; the only
failure is an unreadable catalog. -/
def getAvailableFilters (dk : Disk) : Except DatasetErr FilterCatalog :=
  if dk.catalogOk then
    .ok ⟨dk.files.map (fun f => splitRegion f.1),
         dedupKeepFirst
           (((dk.files.filterMap (fun f => f.2)).flatten).map
             (fun r => r.commodity))⟩
  else .error .catalogUnreadable

/-- `recommendation` dict as seen by the dashboard endpoint: keys may be
absent. -/
structure RecDict where
  action : Option String
  confidence : Option ℤ
  reason : Option String
deriving DecidableEq

/-- `enriched` dict as seen by the dashboard endpoint: keys may be
absent. -/
structure EnrichedDict where
  risk_level : Option String
deriving DecidableEq

/-- The market-intelligence query a dashboard request issues. -/
structure MarketQuery where
  region : String
  commodity : String
  days : Nat
deriving DecidableEq

/-- Embedded from `src/backend/main.py` (`farmer_dashboard`): Python
`value or default` on an optional string field (both `None` and the empty
string are falsy). -/
def pyOrStr : Option String → String → String
  | none, d => d
  | some s, d => if s = "" then d else s

/-- Embedded from `src/backend/main.py` lines 154-161: the market query a
dashboard request issues for a farmer's stored preferences, with the
fallback region, fallback commodity and fixed 14-day window. -/
def dashboardQuery (primary_region primary_commodity : Option String) :
    MarketQuery :=
  ⟨pyOrStr primary_region "Kerala_Kottayam",
   pyOrStr primary_commodity "Banana", 14⟩

/-- The dashboard response fields the fallback logic produces. -/
structure DashboardResponse where
  ai_recommendation : String
  recommendation_reason : String
  consensus_score : ℤ
  risk_level : String
deriving DecidableEq

/-- Embedded from `src/backend/main.py` lines 184-188: `.get` fallbacks on
the recommendation and enriched dicts. -/
def dashboardResponse (recm : RecDict) (enr : EnrichedDict) :
    DashboardResponse :=
  ⟨recm.action.getD "HOLD", recm.reason.getD "",
   recm.confidence.getD 70, enr.risk_level.getD "Moderate"⟩

/-- Embedded from `src/backend/main.py` (`farmer_dashboard`): resolve the
query from the farmer's preferences, run the market-intelligence
collaborator, apply the response fallbacks. -/
def farmerDashboard (primary_region primary_commodity : Option String)
    (intel : MarketQuery → EnrichedDict × RecDict) : DashboardResponse :=
  let q := dashboardQuery primary_region primary_commodity
  dashboardResponse (intel q).2 (intel q).1

/-! ### Concrete data used by the boundary example and the witnesses -/

/-- The spec's bullish example series: modal prices 100, 105, 112. -/
def demoSeries : List SeriesPoint := [(0, 100), (1, 105), (2, 112)]

/-- The spec's threshold-boundary example series: modal prices
100, 98, 97. -/
def boundarySeries : List SeriesPoint := [(0, 100), (1, 98), (2, 97)]

/-- A concrete market record with equal min/modal/max price. -/
def wrec (d : Nat) (price : ℚ) : MarketRecord :=
  ⟨"Kerala_Kottayam", "Banana", "Mandi", d, price, price, price, 1⟩

/-- Concrete rows with a duplicate date (5) and unsorted input order. -/
def c3rows : List MarketRecord :=
  [wrec 5 10, wrec 3 11, wrec 5 12, wrec 7 13]

/-- A concrete readable one-region catalog. -/
def c3disk : Disk := ⟨true, [("Kerala_Kottayam", some c3rows)]⟩

/-- A concrete record for the pagination store. -/
def c7row (d : Nat) : MarketRecord := ⟨"R", "Banana", "M", d, 10, 10, 10, 1⟩

/-- `c7rows n` is a store of `n` matching records with dates `n, …, 1`. -/
def c7rows : Nat → List MarketRecord
  | 0 => []
  | n + 1 => c7row (n + 1) :: c7rows n

/-- A concrete readable catalog holding the 120-record store. -/
def c7disk : Disk := ⟨true, [("R", some (c7rows 120))]⟩

/-- A market-intelligence collaborator returning dicts with every key
absent. -/
def emptyIntel : MarketQuery → EnrichedDict × RecDict :=
  fun _ => (⟨none⟩, ⟨none, none, none⟩)

/-! ### Helper lemmas -/

theorem insertBy_perm {α : Type} (key : α → ℤ) (x : α) (l : List α) :
    (insertBy key x l).Perm (x :: l) := by
  induction l with
  | nil => simp [insertBy]
  | cons y ys ih =>
      simp only [insertBy]
      split
      · exact List.Perm.refl _
      · exact (ih.cons y).trans (List.Perm.swap x y ys)

theorem sortBy_perm {α : Type} (key : α → ℤ) (l : List α) :
    (sortBy key l).Perm l := by
  induction l with
  | nil => simp [sortBy]
  | cons x xs ih =>
      have h1 : sortBy key (x :: xs) = insertBy key x (sortBy key xs) := rfl
      rw [h1]
      exact (insertBy_perm key x (sortBy key xs)).trans (ih.cons x)

theorem pairwise_insertBy {α : Type} (key : α → ℤ) (x : α) (l : List α)
    (h : l.Pairwise (fun a b => key a ≤ key b)) :
    (insertBy key x l).Pairwise (fun a b => key a ≤ key b) := by
  induction l with
  | nil => simp [insertBy]
  | cons y ys ih =>
      rcases List.pairwise_cons.mp h with ⟨hy, hys⟩
      simp only [insertBy]
      split
      · rename_i hxy
        refine List.pairwise_cons.mpr ⟨?_, h⟩
        intro b hb
        rcases List.mem_cons.mp hb with rfl | hb
        · exact hxy
        · exact le_trans hxy (hy b hb)
      · rename_i hxy
        refine List.pairwise_cons.mpr ⟨?_, ih hys⟩
        intro b hb
        have hb' := (insertBy_perm key x ys).mem_iff.mp hb
        rcases List.mem_cons.mp hb' with rfl | hb''
        · exact le_of_not_le hxy
        · exact hy b hb''

theorem pairwise_sortBy {α : Type} (key : α → ℤ) (l : List α) :
    (sortBy key l).Pairwise (fun a b => key a ≤ key b) := by
  induction l with
  | nil => simp [sortBy]
  | cons x xs ih =>
      have h1 : sortBy key (x :: xs) = insertBy key x (sortBy key xs) := rfl
      rw [h1]
      exact pairwise_insertBy key x _ ih

theorem mem_dedupKeepFirst {α : Type} [DecidableEq α] (a : α) (l : List α) :
    a ∈ dedupKeepFirst l ↔ a ∈ l := by
  induction l with
  | nil => simp [dedupKeepFirst]
  | cons x xs ih =>
      simp only [dedupKeepFirst, List.mem_cons, List.mem_filter, ih]
      by_cases hax : a = x
      · simp [hax]
      · simp [hax]

theorem nodup_dedupKeepFirst {α : Type} [DecidableEq α] (l : List α) :
    (dedupKeepFirst l).Nodup := by
  induction l with
  | nil => simp [dedupKeepFirst]
  | cons x xs ih =>
      refine List.Pairwise.cons ?_ (ih.filter _)
      intro b hb
      have hbx := (List.mem_filter.mp hb).2
      simp only [Bool.not_eq_true', beq_eq_false_iff_ne, ne_eq] at hbx
      exact fun hxb => hbx hxb.symm

theorem getLast?_eq_lastOf {α : Type} (x : α) (l : List α) :
    (x :: l).getLast? = some (lastOf x l) := by
  induction l generalizing x with
  | nil => rfl
  | cons y ys ih => rw [List.getLast?_cons_cons, ih, lastOf]

theorem lastFor_isSome_of_mem_distinctDates (l : List MarketRecord)
    (d : Nat) (hd : d ∈ distinctDates l) : (lastFor l d).isSome := by
  have hmem : d ∈ l.map (fun r => r.date) :=
    (mem_dedupKeepFirst d _).mp hd
  rcases List.mem_map.mp hmem with ⟨r, hr, hrd⟩
  have hne : l.filter (fun r => r.date == d) ≠ [] := by
    intro hnil
    have : r ∈ l.filter (fun r => r.date == d) :=
      List.mem_filter.mpr ⟨hr, by simp [hrd]⟩
    simp [hnil] at this
  have hsome := List.getLast?_isSome.mpr hne
  rcases Option.isSome_iff_exists.mp hsome with ⟨r0, hr0⟩
  simp [lastFor, hr0]

theorem map_fst_filterMap_lastFor (l : List MarketRecord) (ds : List Nat)
    (h : ∀ d ∈ ds, (lastFor l d).isSome) :
    (ds.filterMap (fun d => (lastFor l d).map (fun p => (d, p)))).map
      Prod.fst = ds := by
  induction ds with
  | nil => simp
  | cons d ds ih =>
      have hd := h d (List.mem_cons_self d ds)
      rcases Option.isSome_iff_exists.mp hd with ⟨p, hp⟩
      simp only [List.filterMap_cons, hp, Option.map_some']
      simpa using ih (fun e he => h e (List.mem_cons_of_mem _ he))

theorem map_fst_lastPerDate (l : List MarketRecord) :
    (lastPerDate l).map Prod.fst = distinctDates l :=
  map_fst_filterMap_lastFor l (distinctDates l)
    (fun d hd => lastFor_isSome_of_mem_distinctDates l d hd)

theorem mem_lastPerDate (l : List MarketRecord) (d : Nat) (p : ℚ)
    (h : (d, p) ∈ lastPerDate l) : lastFor l d = some p := by
  rcases List.mem_filterMap.mp h with ⟨d', _, hmap⟩
  rcases Option.map_eq_some'.mp hmap with ⟨q, hq, hpair⟩
  injection hpair with h1 h2
  subst h1
  subst h2
  exact hq

theorem classifyDelta_bullish_iff (d : ℚ) :
    classifyDelta d = .bullish ↔ momentumThreshold < d := by
  unfold classifyDelta
  split_ifs with h1 h2 <;> simp_all

theorem classifyDelta_bearish_iff (d : ℚ) :
    classifyDelta d = .bearish ↔ d < -momentumThreshold := by
  have hT : (0 : ℚ) < momentumThreshold := by norm_num [momentumThreshold]
  unfold classifyDelta
  split_ifs with h1 h2
  · constructor
    · intro h
      exact absurd h (by decide)
    · intro h
      exfalso
      linarith
  · simp [h2]
  · simp [h1, h2]

theorem classifyDelta_neutral_iff (d : ℚ) :
    classifyDelta d = .neutral ↔
      ¬ momentumThreshold < d ∧ ¬ d < -momentumThreshold := by
  unfold classifyDelta
  split_ifs with h1 h2 <;> simp_all

theorem buildSeries_length (m : List MarketRecord) (days : Nat) :
    (buildSeries m days).length = min days (distinctDates m).length := by
  have hsort : (sortBy (fun p => (p.1 : ℤ)) (lastPerDate m)).length
      = (lastPerDate m).length := (sortBy_perm _ _).length_eq
  have hlpd : (lastPerDate m).length = (distinctDates m).length := by
    have h := congrArg List.length (map_fst_lastPerDate m)
    simpa using h
  simp only [buildSeries, takeTrailing, List.length_drop, hsort, hlpd]
  omega

theorem buildSeries_sorted (m : List MarketRecord) (days : Nat) :
    ((buildSeries m days).map Prod.fst).Pairwise (· < ·) := by
  have hle : (sortBy (fun p => (p.1 : ℤ)) (lastPerDate m)).Pairwise
      (fun a b => (a.1 : ℤ) ≤ b.1) := pairwise_sortBy _ _
  have hnd : ((sortBy (fun p => (p.1 : ℤ)) (lastPerDate m)).map
      Prod.fst).Nodup := by
    have hperm : ((sortBy (fun p => (p.1 : ℤ)) (lastPerDate m)).map
        Prod.fst).Perm ((lastPerDate m).map Prod.fst) :=
      (sortBy_perm _ _).map _
    rw [hperm.nodup_iff, map_fst_lastPerDate]
    exact nodup_dedupKeepFirst _
  have hnd' : (sortBy (fun p => (p.1 : ℤ)) (lastPerDate m)).Pairwise
      (fun a b => a.1 ≠ b.1) := List.pairwise_map.mp hnd
  have hlt : ((sortBy (fun p => (p.1 : ℤ)) (lastPerDate m)).map
      Prod.fst).Pairwise (· < ·) := by
    rw [List.pairwise_map]
    exact (hle.and hnd').imp (fun h => by
      rcases h with ⟨h1, h2⟩
      omega)
  have hmap : (buildSeries m days).map Prod.fst =
      ((sortBy (fun p => (p.1 : ℤ)) (lastPerDate m)).map Prod.fst).drop
        ((sortBy (fun p => (p.1 : ℤ)) (lastPerDate m)).length - days) := by
    simp [buildSeries, takeTrailing, List.map_drop]
  rw [hmap]
  exact List.Pairwise.sublist (List.drop_sublist _ _) hlt

theorem buildSeries_mem (m : List MarketRecord) (days : Nat) (d : Nat)
    (p : ℚ) (h : (d, p) ∈ buildSeries m days) : lastFor m d = some p := by
  simp only [buildSeries, takeTrailing] at h
  have h1 : (d, p) ∈ sortBy (fun p => (p.1 : ℤ)) (lastPerDate m) :=
    (List.drop_sublist _ _).subset h
  have h2 : (d, p) ∈ lastPerDate m := (sortBy_perm _ _).mem_iff.mp h1
  exact mem_lastPerDate m d p h2

theorem pagedOf_total (rows : List MarketRecord) (c : String)
    (page psize : Nat) :
    (pagedOf rows c page psize).total = (filterCommodity rows c).length := by
  simp [pagedOf, (sortBy_perm _ _).length_eq]

theorem pagedOf_records_length (rows : List MarketRecord) (c : String)
    (page psize : Nat) :
    (pagedOf rows c page psize).records.length =
      min psize ((filterCommodity rows c).length - (page - 1) * psize) := by
  simp [pagedOf, List.length_take, List.length_drop,
    (sortBy_perm _ _).length_eq]

theorem pagedOf_sorted (rows : List MarketRecord) (c : String)
    (page psize : Nat) :
    ((pagedOf rows c page psize).records.map (fun r => r.date)).Pairwise
      (fun a b => b ≤ a) := by
  have hle : (sortBy (fun r : MarketRecord => -(r.date : ℤ))
      (filterCommodity rows c)).Pairwise
      (fun a b => -(a.date : ℤ) ≤ -(b.date : ℤ)) := pairwise_sortBy _ _
  have hsub : (pagedOf rows c page psize).records.Sublist
      (sortBy (fun r : MarketRecord => -(r.date : ℤ))
        (filterCommodity rows c)) :=
    (List.take_sublist _ _).trans (List.drop_sublist _ _)
  have hp := List.Pairwise.sublist hsub hle
  rw [List.pairwise_map]
  exact hp.imp (fun h => by omega)

/-! ### Claim theorems -/

/-- Claim C1: the recommendation synthesizer is a pure decision table:
every input triple gets the action and confidence base of the first
matching row (with the listed cells (rising, Strong, bullish) ↦ SELL/85,
(falling, Weak, bearish) ↦ BUY/80, (stable, *, *) ↦ HOLD/70), any
unmatched triple falls through to HOLD/55, and the confidence base is
adjusted by +10 (agreement) or -10 (conflict) of the momentum direction
with the trend direction and then clamped to [0, 100]. -/
theorem trade_recommendation_decision_table :
    (∀ t b m, computeTradeRecommendation t b m =
      ⟨(matchRow t b m).action,
       clampConfidence ((matchRow t b m).base + momentumAdjust t m),
       (matchRow t b m).reason⟩) ∧
    ((matchRow .rising .Strong .bullish).action = .SELL ∧
      (matchRow .rising .Strong .bullish).base = 85) ∧
    ((matchRow .falling .Weak .bearish).action = .BUY ∧
      (matchRow .falling .Weak .bearish).base = 80) ∧
    (∀ b m, (matchRow .stable b m).action = .HOLD ∧
      (matchRow .stable b m).base = 70) ∧
    (∀ t b m, (decisionTable.all fun r => !(rowMatches r t b m)) = true →
      matchRow t b m = defaultRow ∧ (matchRow t b m).action = .HOLD ∧
      (matchRow t b m).base = 55) ∧
    (∀ t m, ((t = .rising ∧ m = .bullish) ∨ (t = .falling ∧ m = .bearish) →
        momentumAdjust t m = 10) ∧
      ((t = .rising ∧ m = .bearish) ∨ (t = .falling ∧ m = .bullish) →
        momentumAdjust t m = -10) ∧
      (t = .stable ∨ m = .neutral → momentumAdjust t m = 0)) ∧
    (∀ x : ℤ, 0 ≤ clampConfidence x ∧ clampConfidence x ≤ 100 ∧
      (0 ≤ x → x ≤ 100 → clampConfidence x = x)) := by
  refine ⟨by decide, by decide, by decide, by decide, by decide, by decide,
    ?_⟩
  intro x
  refine ⟨le_max_left 0 _, max_le (by norm_num) (min_le_left _ _), ?_⟩
  intro h0 h100
  simp [clampConfidence, max_eq_right, min_eq_right, h0, h100]

/-- Witness for C1 at concrete inputs: (rising, Weak, bearish) matches no
listed row and falls through to the default HOLD/55 row, and
(falling, bearish) is an agreeing pair adjusted with +10. -/
theorem trade_recommendation_decision_table_witness :
    matchRow .rising .Weak .bearish = defaultRow ∧
    momentumAdjust .falling .bearish = 10 := by
  refine ⟨(trade_recommendation_decision_table.2.2.2.2.1 .rising .Weak
    .bearish (by decide)).1, ?_⟩
  exact (trade_recommendation_decision_table.2.2.2.2.2.1 .falling
    .bearish).1 (Or.inr ⟨rfl, rfl⟩)

/-- Claim C5: for all 27 combinations of (trend, buyer_signal, momentum),
including the default/unmatched path, the returned confidence is an
integer in [0, 100]. -/
theorem confidence_always_in_range :
    ∀ t b m, 0 ≤ (computeTradeRecommendation t b m).confidence ∧
      (computeTradeRecommendation t b m).confidence ≤ 100 := by decide

/-- Counterexample for C6 as stated: on modal prices [100, 98, 97] with
T = 3/100 the delta is exactly -3/100 = -T, and since bearish requires
`delta < -T` strictly the classification is not bearish. -/
theorem momentum_boundary_counterexample :
    momentumThreshold = 3 / 100 ∧
    (computePriceMomentum boundarySeries).delta = -(3 / 100) ∧
    (computePriceMomentum boundarySeries).momentum ≠ .bearish := by
  refine ⟨rfl, ?_, ?_⟩
  · show ((97 : ℚ) - 100) / 100 = -(3 / 100)
    norm_num
  · show classifyDelta (((97 : ℚ) - 100) / 100) ≠ .bearish
    rw [Ne, classifyDelta_bearish_iff]
    norm_num [momentumThreshold]

/-- Claim C6 amended: on modal prices [100, 98, 97] with T = 3/100 the
delta is exactly -3% — the threshold boundary — and the classification is
neutral, because bearish requires delta strictly below -T. -/
theorem momentum_boundary_neutral :
    (computePriceMomentum boundarySeries).delta = -(3 / 100) ∧
    (computePriceMomentum boundarySeries).momentum = .neutral := by
  constructor
  · show ((97 : ℚ) - 100) / 100 = -(3 / 100)
    norm_num
  · show classifyDelta (((97 : ℚ) - 100) / 100) = .neutral
    rw [classifyDelta_neutral_iff]
    constructor <;> norm_num [momentumThreshold]

/-- Claim C8: for a missing or empty price series (embedded as the empty
series), enrichment does not fail and degrades to trend = stable,
buyer_signal = Stable, risk_level = Moderate, whatever the raw market
data. -/
theorem enrich_empty_series_degrades :
    ∀ raw : RawMarket, enrichMarketData raw [] =
      ⟨.stable, .Stable, .Moderate⟩ := by
  intro raw
  rfl

/-- Claim C9: `toChartSeries` preserves the point count and the date order
of its input series. -/
theorem chart_series_preserves_order_and_count :
    ∀ series : List SeriesPoint,
      (toChartSeries series).length = series.length ∧
      (toChartSeries series).map ChartPoint.date = series.map Prod.fst := by
  intro series
  constructor
  · simp [toChartSeries]
  · simp [toChartSeries, List.map_map]

/-- Claim C10: the dashboard queries market intelligence with fallback
region "Kerala_Kottayam" when the stored primary_region is null or empty
(resp. fallback commodity "Banana"), always with a 14-day window, and its
response falls back to ai_recommendation "HOLD", consensus_score 70 and
risk_level "Moderate" when those keys are absent (from
`src/backend/main.py` lines 154-161 and 184-188). -/
theorem farmer_dashboard_fallbacks :
    ∀ (pr pc : Option String) (intel : MarketQuery → EnrichedDict × RecDict),
      farmerDashboard pr pc intel =
        dashboardResponse (intel (dashboardQuery pr pc)).2
          (intel (dashboardQuery pr pc)).1 ∧
      (dashboardQuery pr pc).days = 14 ∧
      (pr = none ∨ pr = some "" →
        (dashboardQuery pr pc).region = "Kerala_Kottayam") ∧
      (pc = none ∨ pc = some "" →
        (dashboardQuery pr pc).commodity = "Banana") ∧
      (∀ (recm : RecDict) (enr : EnrichedDict),
        (recm.action = none →
          (dashboardResponse recm enr).ai_recommendation = "HOLD") ∧
        (recm.confidence = none →
          (dashboardResponse recm enr).consensus_score = 70) ∧
        (enr.risk_level = none →
          (dashboardResponse recm enr).risk_level = "Moderate")) := by
  intro pr pc intel
  refine ⟨rfl, rfl, ?_, ?_, ?_⟩
  · rintro (rfl | rfl) <;> simp [dashboardQuery, pyOrStr]
  · rintro (rfl | rfl) <;> simp [dashboardQuery, pyOrStr]
  · intro recm enr
    refine ⟨fun h => ?_, fun h => ?_, fun h => ?_⟩ <;>
      simp [dashboardResponse, h]

/-- Witness for C10: a farmer profile with null region and empty commodity
and a collaborator whose dicts lack every key yields the query
(Kerala_Kottayam, Banana, 14) and the fallback response fields. -/
theorem farmer_dashboard_fallbacks_witness :
    (dashboardQuery none (some "")).region = "Kerala_Kottayam" ∧
    (dashboardQuery none (some "")).commodity = "Banana" ∧
    (dashboardQuery none (some "")).days = 14 ∧
    (dashboardResponse ⟨none, none, none⟩ ⟨none⟩).ai_recommendation =
      "HOLD" ∧
    (dashboardResponse ⟨none, none, none⟩ ⟨none⟩).consensus_score = 70 ∧
    (dashboardResponse ⟨none, none, none⟩ ⟨none⟩).risk_level =
      "Moderate" := by
  have h := farmer_dashboard_fallbacks none (some "") emptyIntel
  have h5 := h.2.2.2.2 ⟨none, none, none⟩ ⟨none⟩
  exact ⟨h.2.2.1 (Or.inl rfl), h.2.2.2.1 (Or.inr rfl), h.2.1,
    h5.1 rfl, h5.2.1 rfl, h5.2.2 rfl⟩

/-- Claim C2: with at least two points `computePriceMomentum` returns
`delta = (last - first) / first` over the window's first and last modal
prices, classified bullish iff delta > +T, bearish iff delta < -T and
neutral otherwise; with fewer than two points it returns neutral with
delta 0 (and, being a total function, raises no error). -/
theorem price_momentum_contract (s : List SeriesPoint) :
    (s.length < 2 → computePriceMomentum s = ⟨.neutral, 0⟩) ∧
    (∀ p q, s.head? = some p → s.getLast? = some q → 2 ≤ s.length →
      (computePriceMomentum s).delta = (q.2 - p.2) / p.2 ∧
      ((computePriceMomentum s).momentum = .bullish ↔
        momentumThreshold < (q.2 - p.2) / p.2) ∧
      ((computePriceMomentum s).momentum = .bearish ↔
        (q.2 - p.2) / p.2 < -momentumThreshold) ∧
      ((computePriceMomentum s).momentum = .neutral ↔
        ¬ momentumThreshold < (q.2 - p.2) / p.2 ∧
        ¬ (q.2 - p.2) / p.2 < -momentumThreshold)) := by
  constructor
  · intro h
    cases s with
    | nil => rfl
    | cons a t =>
        cases t with
        | nil => rfl
        | cons b u => exact absurd h (by simp [List.length_cons])
  · intro p q hp hq hlen
    cases s with
    | nil => simp at hp
    | cons a t =>
        cases t with
        | nil =>
            simp [List.length_cons] at hlen
        | cons b u =>
            simp only [List.head?_cons, Option.some.injEq] at hp
            subst hp
            rw [getLast?_eq_lastOf] at hq
            simp only [Option.some.injEq] at hq
            have hlast : lastOf a (b :: u) = lastOf b u := rfl
            rw [hlast] at hq
            subst hq
            refine ⟨rfl, ?_, ?_, ?_⟩
            · exact classifyDelta_bullish_iff _
            · exact classifyDelta_bearish_iff _
            · exact classifyDelta_neutral_iff _

/-- Witness for C2 on the spec's bullish example series (modal prices
100, 105, 112): the delta is (112 - 100) / 100, and the degenerate
single-point series is neutral with delta 0. -/
theorem price_momentum_contract_witness :
    (computePriceMomentum demoSeries).delta = ((112 : ℚ) - 100) / 100 ∧
    computePriceMomentum [((0 : Nat), (7 : ℚ))] = ⟨.neutral, 0⟩ := by
  constructor
  · exact ((price_momentum_contract demoSeries).2 (0, 100) (2, 112) rfl
      (getLast?_eq_lastOf (0, 100) [(1, 105), (2, 112)]) (by decide)).1
  · exact (price_momentum_contract [((0 : Nat), (7 : ℚ))]).1 (by decide)

/-- Claim C3: for any readable dataset and days in 1..30, the price trend
series has length at most `days`, its dates are strictly ascending (hence
duplicate-free), every point carries the modal price of the last matching
record seen for its date (later same-date records overwrite earlier
ones), and when fewer distinct dates exist than `days` all of them are
returned without padding (length = min days (#distinct dates)). -/
theorem price_trend_series_contract (dk : Disk) (region commodity : String)
    (days : Nat) (rows : List MarketRecord)
    (hread : readDataset dk region = .ok rows)
    (hdays1 : 1 ≤ days) (hdays30 : days ≤ 30) :
    getPriceTrendSeries dk region commodity days =
      .ok (buildSeries (filterCommodity rows commodity) days) ∧
    (buildSeries (filterCommodity rows commodity) days).length ≤ days ∧
    ((buildSeries (filterCommodity rows commodity) days).map
      Prod.fst).Pairwise (· < ·) ∧
    (∀ d p, (d, p) ∈ buildSeries (filterCommodity rows commodity) days →
      lastFor (filterCommodity rows commodity) d = some p) ∧
    (buildSeries (filterCommodity rows commodity) days).length =
      min days (distinctDates (filterCommodity rows commodity)).length := by
  refine ⟨?_, ?_, buildSeries_sorted _ _,
    fun d p h => buildSeries_mem _ _ d p h, buildSeries_length _ _⟩
  · simp [getPriceTrendSeries, hread, Except.map]
  · rw [buildSeries_length]
    omega

/-- Witness for C3 on a concrete store with a duplicate date and unsorted
input order. -/
theorem price_trend_series_contract_witness :
    (buildSeries (filterCommodity c3rows "Banana") 14).length ≤ 14 ∧
    ((buildSeries (filterCommodity c3rows "Banana") 14).map
      Prod.fst).Pairwise (· < ·) ∧
    (buildSeries (filterCommodity c3rows "Banana") 14).length =
      min 14 (distinctDates (filterCommodity c3rows "Banana")).length := by
  have h := price_trend_series_contract c3disk "Kerala_Kottayam" "Banana"
    14 c3rows rfl (by decide) (by decide)
  exact ⟨h.2.1, h.2.2.1, h.2.2.2.2⟩

/-- Claim C7: with a readable dataset, pagination never errors; for a
store of 120 matching records page 3 of size 50 returns exactly 20
records with total 120 and page 10 of size 50 returns 0 records with
total 120; and in every case the returned slice is sorted by date
descending and the requested page and page_size are echoed back. -/
theorem market_records_pagination (dk : Disk) (region commodity : String)
    (rows : List MarketRecord)
    (hread : readDataset dk region = .ok rows) :
    (∀ page psize, getMarketRecords dk region commodity page psize =
      .ok (pagedOf rows commodity page psize)) ∧
    ((filterCommodity rows commodity).length = 120 →
      (pagedOf rows commodity 3 50).records.length = 20 ∧
      (pagedOf rows commodity 3 50).total = 120 ∧
      (pagedOf rows commodity 10 50).records.length = 0 ∧
      (pagedOf rows commodity 10 50).total = 120) ∧
    (∀ page psize,
      (pagedOf rows commodity page psize).page = page ∧
      (pagedOf rows commodity page psize).page_size = psize ∧
      ((pagedOf rows commodity page psize).records.map
        (fun r => r.date)).Pairwise (fun a b => b ≤ a)) := by
  refine ⟨?_, ?_, ?_⟩
  · intro page psize
    simp [getMarketRecords, hread, Except.map]
  · intro h120
    refine ⟨?_, ?_, ?_, ?_⟩
    · rw [pagedOf_records_length, h120]
      omega
    · rw [pagedOf_total, h120]
    · rw [pagedOf_records_length, h120]
      omega
    · rw [pagedOf_total, h120]
  · intro page psize
    exact ⟨rfl, rfl, pagedOf_sorted _ _ _ _⟩

set_option maxRecDepth 20000 in
/-- Witness for C7 on the concrete 120-record store. -/
theorem market_records_pagination_witness :
    (filterCommodity (c7rows 120) "Banana").length = 120 ∧
    (pagedOf (c7rows 120) "Banana" 3 50).records.length = 20 ∧
    (pagedOf (c7rows 120) "Banana" 10 50).records.length = 0 ∧
    (pagedOf (c7rows 120) "Banana" 3 50).total = 120 := by
  have hlen : (filterCommodity (c7rows 120) "Banana").length = 120 := by
    decide
  have h := market_records_pagination c7disk "R" "Banana" (c7rows 120) rfl
  have h2 := h.2.1 hlen
  exact ⟨hlen, h2.1, h2.2.2.1, h2.2.1⟩

/-- Claim C4: the core operations are total over valid-typed inputs —
whenever the dataset access succeeds, raw data, trend series, the full
intelligence pipeline (momentum, enrichment, recommendation, chart) and
pagination all return ok; filter discovery returns ok whenever the
catalog is readable; an unknown region and an unknown commodity yield
empty results rather than failures; the only propagating failures are the
dataset-access errors of `readDataset`. -/
theorem core_operations_no_exception (dk : Disk) (region commodity : String)
    (days page psize : Nat) :
    (∀ rows, readDataset dk region = .ok rows →
      (getMarketData dk region commodity).isOk ∧
      (getPriceTrendSeries dk region commodity days).isOk ∧
      (marketIntelligence dk region commodity days).isOk ∧
      (getMarketRecords dk region commodity page psize).isOk) ∧
    (dk.catalogOk = true → (getAvailableFilters dk).isOk) ∧
    (dk.catalogOk = true → lookupFile dk.files region = none →
      getMarketData dk region commodity = .ok ⟨[], none⟩ ∧
      getPriceTrendSeries dk region commodity days = .ok []) ∧
    (∀ rows, readDataset dk region = .ok rows →
      (∀ r ∈ rows, eqCI r.commodity commodity = false) →
      getMarketData dk region commodity = .ok ⟨[], none⟩) := by
  refine ⟨?_, ?_, ?_, ?_⟩
  · intro rows hread
    refine ⟨?_, ?_, ?_, ?_⟩ <;>
      simp [getMarketData, getPriceTrendSeries, getMarketRecords,
        marketIntelligence, hread, Except.isOk, Except.toBool, bind,
        Except.bind, pure, Except.pure, Except.map]
  · intro hcat
    simp [getAvailableFilters, hcat, Except.isOk, Except.toBool]
  · intro hcat hnone
    have hread : readDataset dk region = .ok [] := by
      simp [readDataset, hcat, hnone]
    constructor <;>
      simp [getMarketData, getPriceTrendSeries, hread, filterCommodity,
        sortBy, buildSeries, takeTrailing, lastPerDate, distinctDates,
        dedupKeepFirst, Except.map]
  · intro rows hread hnomatch
    have hfil : filterCommodity rows commodity = [] := by
      rw [filterCommodity, List.filter_eq_nil_iff]
      intro r hr
      simp [hnomatch r hr]
    simp [getMarketData, hread, hfil, sortBy, Except.map]

/-- Witness for C4: a concrete readable catalog — the full pipeline
returns ok on a known region, filter discovery returns ok, and an unknown
region yields the empty raw result. -/
theorem core_operations_no_exception_witness :
    (marketIntelligence c3disk "Kerala_Kottayam" "Banana" 14).isOk = true ∧
    (getAvailableFilters c3disk).isOk = true ∧
    getMarketData c3disk "Unknown_Region" "Banana" = .ok ⟨[], none⟩ := by
  have h := core_operations_no_exception c3disk "Kerala_Kottayam" "Banana"
    14 1 50
  have h2 := core_operations_no_exception c3disk "Unknown_Region" "Banana"
    14 1 50
  exact ⟨(h.1 c3rows rfl).2.2.1, h.2.1 rfl, (h2.2.2.1 rfl rfl).1⟩

end LeafNetwork
